import Mathlib

/-
  Verification of the UltraStable supply-adjustment protocol of the
  o2ul-blockchain repository (core/ultrastable_integration.go and
  core/genesis_ultrastable.go), embedded shallowly in Lean.

  The repository delegates the decision calculation and the feasibility
  predicate to a proprietary module that is not part of the repository,
  and it accesses the ledger through the go-ethereum state database.
  Those external collaborators are modelled from the specification; the
  integration code itself (ApplySupplyAdjustment, updateAdjustmentHistory,
  GetAdjustmentHistory, ProcessUpdate, checkForUpdates,
  SetupUltraStableToken) is translated from the source.
-/

set_option autoImplicit false

namespace O2UL

/-- Seigniorage adjustment kind, mirroring seigniorage.AdjustmentType of the
proprietary module as used by the source: None, Expansion, Contraction. -/
inductive AdjustmentType
  | None
  | Expansion
  | Contraction
deriving DecidableEq, Repr

/-- Modelled from the spec: seigniorage.AdjustmentResult is declared in the
proprietary module, absent from this repository; its fields are the ones the
source reads (Type, Amount, ValueTokens, DeviationBps, NewSupply, Timestamp)
and the AdjustmentDecision record of the spec. The Go field Type is named
kind here because Type is a reserved word in Lean. Quantities are unsigned
arbitrary-precision integers per the spec; timestamps are integers. -/
structure AdjustmentResult where
  kind : AdjustmentType
  Amount : Nat
  ValueTokens : Nat
  DeviationBps : Int
  NewSupply : Nat
  Timestamp : Int
deriving DecidableEq, Repr

/-- Modelled from the spec: storage keys of the ledger are deterministic
hashes of human-readable string identifiers, distinct per identifier
(go-ethereum common.HexToHash is not part of this repository). Only the
slots of the supply-adjustment protocol are represented; the constructors
correspond to the string keys used by the source, with the history slots
adjustment_[i]_type, adjustment_[i]_amount, adjustment_[i]_value_tokens,
adjustment_[i]_deviation, adjustment_[i]_new_supply and
adjustment_[i]_timestamp indexed structurally by the record number. -/
inductive SKey
  | currentSupply
  | minimumSupply
  | historyCount
  | targetValue
  | currentValue
  | lastUpdateTime
  | marketVolatility
  | valueTokenPrice
  | adjType (i : Nat)
  | adjAmount (i : Nat)
  | adjValueTokens (i : Nat)
  | adjDeviation (i : Nat)
  | adjNewSupply (i : Nat)
  | adjTimestamp (i : Nat)
deriving DecidableEq, Repr

/-- Modelled from the spec: the ledger snapshot (go-ethereum state.StateDB is
not part of this repository). Per the spec it is a key-value store of
unsigned words plus a balance ledger keyed by account, with atomic get and
set inside one snapshot. Accounts are abstracted as naturals. -/
structure StateDB where
  store : SKey → Nat
  balance : Nat → Nat

/-- Modelled from the spec: ledger setState, writing one word. The source
stores big.Int values through their byte representation, which encodes the
absolute value; callers of this model pass naturals obtained by natAbs. -/
def setStore (σ : StateDB) (k : SKey) (v : Nat) : StateDB :=
  { σ with store := fun j => if j = k then v else σ.store j }

/-- Modelled from the spec: ledger addBalance. The reason tag the source
passes is only a metric label and is not modelled. -/
def addBalance (σ : StateDB) (a : Nat) (amt : Nat) : StateDB :=
  { σ with balance := fun b => if b = a then σ.balance b + amt else σ.balance b }

/-- Modelled from the spec: ledger subBalance. The spec requires the
subtracted amount to be checked against the balance before any mutation, so
the truncated natural subtraction is never exercised below its floor by the
feasibility-checked call paths. -/
def subBalance (σ : StateDB) (a : Nat) (amt : Nat) : StateDB :=
  { σ with balance := fun b => if b = a then σ.balance b - amt else σ.balance b }

/-- Reason reported by the feasibility predicate, following the error
taxonomy of the spec: insufficient treasury balance for an Expansion,
breach of the minimum supply for a Contraction. -/
inductive FeasReason
  | ok
  | insufficientBalance
  | supplyUnderflow
deriving DecidableEq, Repr

/-- Modelled from the spec: IsAdjustmentPossible lives in the proprietary
module, absent from this repository. The source calls it with exactly the
adjustment, the treasury balance and the minimum supply (it never receives
the current ledger supply), so the minimum-supply condition can only be
judged from the resulting-supply field carried inside the decision: a
Contraction is infeasible when that claimed resulting supply is below the
minimum supply, an Expansion is infeasible when the treasury balance cannot
cover the value tokens to burn. -/
def IsAdjustmentPossible (adj : AdjustmentResult) (treasuryBalance minSupply : Nat) :
    Bool × FeasReason :=
  match adj.kind with
  | .None => (true, .ok)
  | .Expansion =>
      if treasuryBalance < adj.ValueTokens then (false, .insufficientBalance)
      else (true, .ok)
  | .Contraction =>
      if adj.NewSupply < minSupply then (false, .supplyUnderflow)
      else (true, .ok)

/-- Encoding of the adjustment type written by updateAdjustmentHistory:
Expansion is stored as 1, Contraction as 2, anything else as 0. -/
def encodeAdjustmentType : AdjustmentType → Nat
  | .Expansion => 1
  | .Contraction => 2
  | .None => 0

/-- Embeds updateAdjustmentHistory of core/ultrastable_integration.go: read
the history count, persist count + 1, then store the six fields of the
record under the slots indexed by the old count. Signed fields are stored
through the byte encoding of big.Int, hence by absolute value. -/
def updateAdjustmentHistory (σ : StateDB) (adjustment : AdjustmentResult) : StateDB :=
  let count := σ.store SKey.historyCount
  let σ1 := setStore σ SKey.historyCount (count + 1)
  let σ2 := setStore σ1 (SKey.adjType count) (encodeAdjustmentType adjustment.kind)
  let σ3 := setStore σ2 (SKey.adjAmount count) adjustment.Amount
  let σ4 := setStore σ3 (SKey.adjValueTokens count) adjustment.ValueTokens
  let σ5 := setStore σ4 (SKey.adjDeviation count) adjustment.DeviationBps.natAbs
  let σ6 := setStore σ5 (SKey.adjNewSupply count) adjustment.NewSupply
  setStore σ6 (SKey.adjTimestamp count) adjustment.Timestamp.natAbs

/-- Embeds ApplySupplyAdjustment of core/ultrastable_integration.go. A None
adjustment returns nil at once. Otherwise the minimum supply and the
treasury balance are read and the feasibility predicate is consulted; an
infeasible adjustment is logged and nil is returned with no mutation. An
Expansion converts the value-token amount to a 256-bit balance word
(returning the overflow error when it does not fit), burns it from the
treasury and adds the amount to the persisted supply; a Contraction mints
the value tokens to the treasury and subtracts the amount from the supply
(a big.Int subtraction, stored by absolute value). Both mutating branches
then append the history record. The error result models the Go error return:
none is nil. -/
def ApplySupplyAdjustment (σ : StateDB) (treasuryAddr : Nat)
    (adjustment : AdjustmentResult) : Option String × StateDB :=
  if adjustment.kind = AdjustmentType.None then (none, σ)
  else
    let minSupply := σ.store SKey.minimumSupply
    let treasuryBalance := σ.balance treasuryAddr
    let possible := (IsAdjustmentPossible adjustment treasuryBalance minSupply).1
    if !possible then (none, σ)
    else
      match adjustment.kind with
      | .Expansion =>
          if 2 ^ 256 ≤ adjustment.ValueTokens then
            (some "value token amount overflow", σ)
          else
            let σ1 := subBalance σ treasuryAddr adjustment.ValueTokens
            let currentSupply := σ1.store SKey.currentSupply
            let newSupply := currentSupply + adjustment.Amount
            let σ2 := setStore σ1 SKey.currentSupply newSupply
            (none, updateAdjustmentHistory σ2 adjustment)
      | .Contraction =>
          if 2 ^ 256 ≤ adjustment.ValueTokens then
            (some "value token amount overflow", σ)
          else
            let σ1 := addBalance σ treasuryAddr adjustment.ValueTokens
            let currentSupply := σ1.store SKey.currentSupply
            let newSupply := ((currentSupply : Int) - (adjustment.Amount : Int)).natAbs
            let σ2 := setStore σ1 SKey.currentSupply newSupply
            (none, updateAdjustmentHistory σ2 adjustment)
      | .None => (none, σ)

/-- Raw stored history record: the six words held by the slots of one index. -/
structure RawRecord where
  typ : Nat
  amount : Nat
  valueTokens : Nat
  deviation : Nat
  newSupply : Nat
  timestamp : Nat
deriving DecidableEq, Repr

/-- The six words stored for history record i. -/
def readRecord (σ : StateDB) (i : Nat) : RawRecord :=
  { typ := σ.store (SKey.adjType i)
    amount := σ.store (SKey.adjAmount i)
    valueTokens := σ.store (SKey.adjValueTokens i)
    deviation := σ.store (SKey.adjDeviation i)
    newSupply := σ.store (SKey.adjNewSupply i)
    timestamp := σ.store (SKey.adjTimestamp i) }

/-- The raw record that updateAdjustmentHistory writes for an adjustment. -/
def encodeRecord (adjustment : AdjustmentResult) : RawRecord :=
  { typ := encodeAdjustmentType adjustment.kind
    amount := adjustment.Amount
    valueTokens := adjustment.ValueTokens
    deviation := adjustment.DeviationBps.natAbs
    newSupply := adjustment.NewSupply
    timestamp := adjustment.Timestamp.natAbs }

/-- Modelled from the spec: the Int64 method of math/big (not part of this
repository), used by GetAdjustmentHistory on the stored history count and
timestamps: the low 64 bits of the value, interpreted as a signed 64-bit
integer. -/
def toInt64 (n : Nat) : Int :=
  let m : Nat := n % 2 ^ 64
  if m < 2 ^ 63 then (m : Int) else (m : Int) - 2 ^ 64

/-- Decoding of the stored adjustment type by GetAdjustmentHistory:
1 is Expansion, 2 is Contraction, every other value is None. -/
def decodeAdjustmentType (v : Int) : AdjustmentType :=
  if v = 1 then .Expansion else if v = 2 then .Contraction else .None

/-- One iteration body of the retrieval loop of GetAdjustmentHistory: read
the six slots of record i and rebuild a seigniorage.AdjustmentResult. The
deviation is read back as an unsigned word and the timestamp through Int64,
exactly as the source does. -/
def decodeRecord (σ : StateDB) (i : Nat) : AdjustmentResult :=
  { kind := decodeAdjustmentType (toInt64 (σ.store (SKey.adjType i)))
    Amount := σ.store (SKey.adjAmount i)
    ValueTokens := σ.store (SKey.adjValueTokens i)
    DeviationBps := (σ.store (SKey.adjDeviation i) : Int)
    NewSupply := σ.store (SKey.adjNewSupply i)
    Timestamp := toInt64 (σ.store (SKey.adjTimestamp i)) }

/-- The fetch loop of GetAdjustmentHistory: for i := start; i < count; i++
append the decoded record i. The fuel argument is the iteration count
(count - start), so the recursion is structural. -/
def fetchAdjustments (σ : StateDB) : Nat → Int → List AdjustmentResult
  | 0, _ => []
  | fuel + 1, i => decodeRecord σ i.toNat :: fetchAdjustments σ fuel (i + 1)

/-- Embeds GetAdjustmentHistory of core/ultrastable_integration.go: read the
history count through Int64, clamp start := count - maxEntries at zero, and
fetch the records start, ..., count - 1 in order. -/
def GetAdjustmentHistory (σ : StateDB) (maxEntries : Int) : List AdjustmentResult :=
  let count := toInt64 (σ.store SKey.historyCount)
  let start0 := count - maxEntries
  let start := if start0 < 0 then 0 else start0
  fetchAdjustments σ (count - start).toNat start

/-- Embeds ProcessUpdate of core/ultrastable_integration.go. The decision
calculation CalculateSupplyAdjustment and the two stable-value getters live
in the proprietary module, so they enter as parameters calcDecision, targetValue and
currentValue; now is the wall-clock timestamp. The function reads the
current supply, the value-token price (defaulting to 10 ^ 18 when the stored
word is zero) and the market volatility (truncated to uint8 through Uint64,
hence reduced mod 2 ^ 64 and then mod 2 ^ 8), computes the adjustment, and
stores the target value, the current value and the update time. The computed
adjustment is returned as the value sent on the update feed; no supply
mutation, balance mutation or history append is performed here. -/
def ProcessUpdate (calcDecision : Nat → Nat → Nat → AdjustmentResult)
    (targetValue currentValue : Nat) (now : Int) (σ : StateDB) :
    AdjustmentResult × StateDB :=
  let currentSupply := σ.store SKey.currentSupply
  let priceWord := σ.store SKey.valueTokenPrice
  let valueTokenPrice := if priceWord = 0 then 10 ^ 18 else priceWord
  let volatility := σ.store SKey.marketVolatility % 2 ^ 64 % 2 ^ 8
  let adjustment := calcDecision currentSupply valueTokenPrice volatility
  let σ1 := setStore σ SKey.targetValue targetValue
  let σ2 := setStore σ1 SKey.currentValue currentValue
  let σ3 := setStore σ2 SKey.lastUpdateTime now.natAbs
  (adjustment, σ3)

/-- Embeds checkForUpdates of core/ultrastable_integration.go: compare the
last update time of the proprietary module against the locally recorded one
and run ProcessUpdate exactly when the proprietary data is newer; none
models the tick that does nothing. -/
def checkForUpdates (lastUpdateTime proprietaryUpdate : Int)
    (calcDecision : Nat → Nat → Nat → AdjustmentResult)
    (targetValue currentValue : Nat) (now : Int) (σ : StateDB) :
    Option (AdjustmentResult × StateDB) :=
  if lastUpdateTime < proprietaryUpdate then
    some (ProcessUpdate calcDecision targetValue currentValue now σ)
  else
    none

/-- Embeds the protocol-relevant writes of SetupUltraStableToken of
core/genesis_ultrastable.go: allocate the initial supply to the treasury
(aborting before any write when it overflows 256 bits, as the uint256
conversion in the source does), seed the supply counter, the minimum supply
of 10 ^ 18, the initial values of 10 ^ 18, the update time, the volatility
of 25 and a history count of zero. Token name, symbol, decimals, update
frequency and the weight tables are outside the adjustment protocol and are
not represented in the key space of this model. -/
def SetupUltraStableToken (σ : StateDB) (treasuryAddr : Nat)
    (initialSupply : Nat) (now : Int) : StateDB :=
  if 2 ^ 256 ≤ initialSupply then σ
  else
    let σ1 := addBalance σ treasuryAddr initialSupply
    let σ2 := setStore σ1 SKey.currentSupply initialSupply
    let σ3 := setStore σ2 SKey.minimumSupply (10 ^ 18)
    let σ4 := setStore σ3 SKey.currentValue (10 ^ 18)
    let σ5 := setStore σ4 SKey.targetValue (10 ^ 18)
    let σ6 := setStore σ5 SKey.lastUpdateTime now.natAbs
    let σ7 := setStore σ6 SKey.marketVolatility 25
    setStore σ7 SKey.historyCount 0

/-
  Concrete ledger states and decisions used to evaluate the theorems on
  explicit inputs.
-/

/-- Ledger with supply 10, minimum supply 8, empty treasury and history. -/
def staleState : StateDB :=
  { store := fun k =>
      match k with
      | SKey.currentSupply => 10
      | SKey.minimumSupply => 8
      | _ => 0
    balance := fun _ => 0 }

/-- A Contraction decided against an older ledger: it claims a resulting
supply of 15, yet the current supply is 10, so applying it drops the supply
to 5, below the minimum of 8. -/
def staleContraction : AdjustmentResult :=
  { kind := AdjustmentType.Contraction, Amount := 5, ValueTokens := 3
    DeviationBps := 0, NewSupply := 15, Timestamp := 0 }

/-- Ledger with supply 100, minimum supply 8, empty treasury and history. -/
def freshState1 : StateDB :=
  { store := fun k =>
      match k with
      | SKey.currentSupply => 100
      | SKey.minimumSupply => 8
      | _ => 0
    balance := fun _ => 0 }

/-- A feasible Contraction consistent with freshState1: 100 - 5 = 95. -/
def freshContraction1 : AdjustmentResult :=
  { kind := AdjustmentType.Contraction, Amount := 5, ValueTokens := 3
    DeviationBps := 0, NewSupply := 95, Timestamp := 0 }

/-- A Contraction consistent with staleState that breaches the minimum:
10 - 5 = 5 < 8. -/
def breachContraction : AdjustmentResult :=
  { kind := AdjustmentType.Contraction, Amount := 5, ValueTokens := 3
    DeviationBps := 0, NewSupply := 5, Timestamp := 0 }

/-- The concrete scenario of the spec: supply 1,000,000 x 10^18, treasury
balance 500 x 10^18, empty history. -/
def exampleState : StateDB :=
  { store := fun k =>
      match k with
      | SKey.currentSupply => 1000000 * 10 ^ 18
      | SKey.minimumSupply => 10 ^ 18
      | _ => 0
    balance := fun _ => 500 * 10 ^ 18 }

/-- The Expansion of the concrete scenario: mint 10,000 x 10^18 against
50 x 10^18 value tokens. -/
def exampleExpansion : AdjustmentResult :=
  { kind := AdjustmentType.Expansion, Amount := 10000 * 10 ^ 18
    ValueTokens := 50 * 10 ^ 18, DeviationBps := 0
    NewSupply := 1010000 * 10 ^ 18, Timestamp := 0 }

/-- Ledger with supply 100 and everything else empty. -/
def mismatchState : StateDB :=
  { store := fun k =>
      match k with
      | SKey.currentSupply => 100
      | _ => 0
    balance := fun _ => 0 }

/-- An Expansion whose claimed resulting supply 999 is not the supply the
ledger reflects after the mutation (100 + 10 = 110). -/
def mismatchExpansion : AdjustmentResult :=
  { kind := AdjustmentType.Expansion, Amount := 10, ValueTokens := 0
    DeviationBps := 0, NewSupply := 999, Timestamp := 0 }

/-- Ledger with supply 40, treasury balance 9, empty history. -/
def auditState : StateDB :=
  { store := fun k =>
      match k with
      | SKey.currentSupply => 40
      | _ => 0
    balance := fun _ => 9 }

/-- A feasible Expansion with claimed resulting supply 47 = 40 + 7. -/
def auditExpansion : AdjustmentResult :=
  { kind := AdjustmentType.Expansion, Amount := 7, ValueTokens := 2
    DeviationBps := 0, NewSupply := 47, Timestamp := 0 }

/-- A decision calculation returning an Expansion of 7, for exercising the
periodic path. -/
def tickCalc : Nat → Nat → Nat → AdjustmentResult :=
  fun s _ _ =>
    { kind := AdjustmentType.Expansion, Amount := 7, ValueTokens := 1
      DeviationBps := 0, NewSupply := s + 7, Timestamp := 0 }

/-- Ledger with supply 50 and empty history, for the periodic path. -/
def tickState : StateDB :=
  { store := fun k =>
      match k with
      | SKey.currentSupply => 50
      | _ => 0
    balance := fun _ => 0 }

/-- The empty ledger: all words zero, all balances zero. -/
def zeroState : StateDB :=
  { store := fun _ => 0, balance := fun _ => 0 }

/-- A None decision. -/
def noneDecision : AdjustmentResult :=
  { kind := AdjustmentType.None, Amount := 0, ValueTokens := 0
    DeviationBps := 0, NewSupply := 0, Timestamp := 0 }

/-- A Contraction infeasible on staleState (claimed supply 5 below the
minimum 8) whose value-token amount 2^256 does not fit 256 bits. -/
def overflowSkipAdj : AdjustmentResult :=
  { kind := AdjustmentType.Contraction, Amount := 5, ValueTokens := 2 ^ 256
    DeviationBps := 0, NewSupply := 5, Timestamp := 0 }

/-- A Contraction feasible on zeroState (minimum supply 0) whose value-token
amount 2^256 does not fit 256 bits. -/
def overflowFeasibleAdj : AdjustmentResult :=
  { kind := AdjustmentType.Contraction, Amount := 1, ValueTokens := 2 ^ 256
    DeviationBps := 0, NewSupply := 5, Timestamp := 0 }

/-- Ledger with supply 100, minimum supply 8, treasury balance 50. -/
def skipState : StateDB :=
  { store := fun k =>
      match k with
      | SKey.currentSupply => 100
      | SKey.minimumSupply => 8
      | _ => 0
    balance := fun _ => 50 }

/-- A Contraction the feasibility check rejects on skipState: claimed
resulting supply 2 is below the minimum 8. -/
def skipAdj : AdjustmentResult :=
  { kind := AdjustmentType.Contraction, Amount := 5, ValueTokens := 3
    DeviationBps := 0, NewSupply := 2, Timestamp := 0 }

/-- A Contraction the feasibility check accepts on skipState: claimed
resulting supply 95 = 100 - 5 clears the minimum 8. -/
def appliedAdj : AdjustmentResult :=
  { kind := AdjustmentType.Contraction, Amount := 5, ValueTokens := 3
    DeviationBps := 0, NewSupply := 95, Timestamp := 0 }

/-- A first journal record. -/
def recA : AdjustmentResult :=
  { kind := AdjustmentType.Expansion, Amount := 11, ValueTokens := 4
    DeviationBps := 25, NewSupply := 111, Timestamp := 100 }

/-- A second journal record. -/
def recB : AdjustmentResult :=
  { kind := AdjustmentType.Contraction, Amount := 6, ValueTokens := 2
    DeviationBps := -12, NewSupply := 105, Timestamp := 200 }

/-- Journal whose persisted count 2^63 does not fit a signed 64-bit
integer; every record slot holds the word 1. -/
def hugeJournalState : StateDB :=
  { store := fun k =>
      match k with
      | SKey.historyCount => 2 ^ 63
      | _ => 1
    balance := fun _ => 0 }

/-- Journal holding three records, with distinguishable amount words. -/
def smallJournalState : StateDB :=
  { store := fun k =>
      match k with
      | SKey.historyCount => 3
      | SKey.adjAmount i => 10 + i
      | SKey.adjType _ => 1
      | _ => 0
    balance := fun _ => 0 }

/-- Ledger whose stored value-token price word is zero. -/
def zeroPriceState : StateDB :=
  { store := fun k =>
      match k with
      | SKey.currentSupply => 60
      | SKey.valueTokenPrice => 0
      | _ => 0
    balance := fun _ => 0 }

/-- Ledger whose stored value-token price word is 5. -/
def setPriceState : StateDB :=
  { store := fun k =>
      match k with
      | SKey.currentSupply => 60
      | SKey.valueTokenPrice => 5
      | _ => 0
    balance := fun _ => 0 }

/-- A decision calculation that records the three inputs it receives, for
observing what the periodic path passes to it. -/
def probeCalc : Nat → Nat → Nat → AdjustmentResult :=
  fun s p v =>
    { kind := AdjustmentType.None, Amount := s, ValueTokens := p
      DeviationBps := 0, NewSupply := v, Timestamp := 0 }

/-
  Basic lemmas about the ledger operations.
-/

@[simp]
lemma setStore_store (σ : StateDB) (k : SKey) (v : Nat) (j : SKey) :
    (setStore σ k v).store j = if j = k then v else σ.store j := rfl

@[simp]
lemma setStore_balance (σ : StateDB) (k : SKey) (v : Nat) :
    (setStore σ k v).balance = σ.balance := rfl

@[simp]
lemma addBalance_store (σ : StateDB) (a amt : Nat) :
    (addBalance σ a amt).store = σ.store := rfl

@[simp]
lemma subBalance_store (σ : StateDB) (a amt : Nat) :
    (subBalance σ a amt).store = σ.store := rfl

@[simp]
lemma addBalance_balance (σ : StateDB) (a amt b : Nat) :
    (addBalance σ a amt).balance b
      = if b = a then σ.balance b + amt else σ.balance b := rfl

@[simp]
lemma subBalance_balance (σ : StateDB) (a amt b : Nat) :
    (subBalance σ a amt).balance b
      = if b = a then σ.balance b - amt else σ.balance b := rfl

/-
  Lemmas about one history append.
-/

lemma updateAdjustmentHistory_count (σ : StateDB) (a : AdjustmentResult) :
    (updateAdjustmentHistory σ a).store SKey.historyCount
      = σ.store SKey.historyCount + 1 := by
  simp [updateAdjustmentHistory]

lemma updateAdjustmentHistory_balance (σ : StateDB) (a : AdjustmentResult) :
    (updateAdjustmentHistory σ a).balance = σ.balance := by
  simp [updateAdjustmentHistory]

lemma updateAdjustmentHistory_currentSupply (σ : StateDB) (a : AdjustmentResult) :
    (updateAdjustmentHistory σ a).store SKey.currentSupply
      = σ.store SKey.currentSupply := by
  simp [updateAdjustmentHistory]

lemma updateAdjustmentHistory_readRecord_self (σ : StateDB) (a : AdjustmentResult) :
    readRecord (updateAdjustmentHistory σ a) (σ.store SKey.historyCount)
      = encodeRecord a := by
  simp [readRecord, updateAdjustmentHistory, encodeRecord]

lemma updateAdjustmentHistory_newSupply_slot (σ : StateDB) (a : AdjustmentResult) :
    (updateAdjustmentHistory σ a).store (SKey.adjNewSupply (σ.store SKey.historyCount))
      = a.NewSupply := by
  simp [updateAdjustmentHistory]

lemma updateAdjustmentHistory_readRecord_ne (σ : StateDB) (a : AdjustmentResult)
    (i : Nat) (h : i ≠ σ.store SKey.historyCount) :
    readRecord (updateAdjustmentHistory σ a) i = readRecord σ i := by
  simp [readRecord, updateAdjustmentHistory, h]

/-
  Reductions of ApplySupplyAdjustment on each branch.
-/

lemma apply_none_eq (σ : StateDB) (t : Nat) (adj : AdjustmentResult)
    (hk : adj.kind = AdjustmentType.None) :
    ApplySupplyAdjustment σ t adj = (none, σ) := by
  simp [ApplySupplyAdjustment, hk]

lemma apply_infeasible_eq (σ : StateDB) (t : Nat) (adj : AdjustmentResult)
    (hk : adj.kind ≠ AdjustmentType.None)
    (hinf : (IsAdjustmentPossible adj (σ.balance t) (σ.store SKey.minimumSupply)).1
      = false) :
    ApplySupplyAdjustment σ t adj = (none, σ) := by
  simp [ApplySupplyAdjustment, hk, hinf]

lemma apply_expansion_eq (σ : StateDB) (t : Nat) (adj : AdjustmentResult)
    (hk : adj.kind = AdjustmentType.Expansion)
    (hfeas : adj.ValueTokens ≤ σ.balance t)
    (hfit : adj.ValueTokens < 2 ^ 256) :
    ApplySupplyAdjustment σ t adj
      = (none,
          updateAdjustmentHistory
            (setStore (subBalance σ t adj.ValueTokens) SKey.currentSupply
              (σ.store SKey.currentSupply + adj.Amount)) adj) := by
  have h1 : ¬ σ.balance t < adj.ValueTokens := Nat.not_lt.mpr hfeas
  have h2 : ¬ 2 ^ 256 ≤ adj.ValueTokens := Nat.not_le.mpr hfit
  simp [ApplySupplyAdjustment, hk, IsAdjustmentPossible, h1, h2]
  exact hfit

lemma apply_contraction_eq (σ : StateDB) (t : Nat) (adj : AdjustmentResult)
    (hk : adj.kind = AdjustmentType.Contraction)
    (hfeas : σ.store SKey.minimumSupply ≤ adj.NewSupply)
    (hfit : adj.ValueTokens < 2 ^ 256) :
    ApplySupplyAdjustment σ t adj
      = (none,
          updateAdjustmentHistory
            (setStore (addBalance σ t adj.ValueTokens) SKey.currentSupply
              (((σ.store SKey.currentSupply : Int) - (adj.Amount : Int)).natAbs)) adj) := by
  have h1 : ¬ adj.NewSupply < σ.store SKey.minimumSupply := Nat.not_lt.mpr hfeas
  have h2 : ¬ 2 ^ 256 ≤ adj.ValueTokens := Nat.not_le.mpr hfit
  simp [ApplySupplyAdjustment, hk, IsAdjustmentPossible, h1, h2]
  exact hfit

/-- C5: for every decision with kind None, ApplySupplyAdjustment returns
immediately with success (nil), performs zero ledger mutations and appends
zero history records: the result is exactly the pair of nil and the
untouched input ledger. -/
theorem none_apply_noop (σ : StateDB) (t : Nat) (adj : AdjustmentResult)
    (h : adj.kind = AdjustmentType.None) :
    ApplySupplyAdjustment σ t adj = (none, σ) :=
  apply_none_eq σ t adj h

/-- Witness for C5 at the empty ledger and a None decision. -/
theorem none_apply_noop_witness :
    ApplySupplyAdjustment zeroState 0 noneDecision = (none, zeroState) :=
  none_apply_noop zeroState 0 noneDecision rfl

/-- C2: every feasible Expansion decision whose value-token amount fits
256 bits is applied with the persisted supply increased by exactly the
supply delta, the treasury balance decreased by exactly the counterpart
amount, a nil result, and one appended history record. -/
theorem expansion_apply_correct (σ : StateDB) (t : Nat) (adj : AdjustmentResult)
    (hk : adj.kind = AdjustmentType.Expansion)
    (hfit : adj.ValueTokens < 2 ^ 256)
    (hfeas : adj.ValueTokens ≤ σ.balance t) :
    (ApplySupplyAdjustment σ t adj).1 = none ∧
    ((ApplySupplyAdjustment σ t adj).2).store SKey.currentSupply
      = σ.store SKey.currentSupply + adj.Amount ∧
    ((ApplySupplyAdjustment σ t adj).2).balance t + adj.ValueTokens
      = σ.balance t ∧
    ((ApplySupplyAdjustment σ t adj).2).store SKey.historyCount
      = σ.store SKey.historyCount + 1 := by
  rw [apply_expansion_eq σ t adj hk hfeas hfit]
  refine ⟨rfl, ?_, ?_, ?_⟩
  · rw [updateAdjustmentHistory_currentSupply]
    simp
  · rw [updateAdjustmentHistory_balance]
    simp
    omega
  · rw [updateAdjustmentHistory_count]
    simp

/-- Witness for C2: the concrete scenario of the spec. From supply
1,000,000 x 10^18 and treasury 500 x 10^18, the Expansion with delta
10,000 x 10^18 and counterpart 50 x 10^18 yields supply 1,010,000 x 10^18,
treasury 450 x 10^18 and history count 1. -/
theorem expansion_apply_correct_witness :
    (ApplySupplyAdjustment exampleState 7 exampleExpansion).1 = none ∧
    ((ApplySupplyAdjustment exampleState 7 exampleExpansion).2).store SKey.currentSupply
      = 1010000 * 10 ^ 18 ∧
    ((ApplySupplyAdjustment exampleState 7 exampleExpansion).2).balance 7
      = 450 * 10 ^ 18 ∧
    ((ApplySupplyAdjustment exampleState 7 exampleExpansion).2).store SKey.historyCount
      = 1 := by
  obtain ⟨h1, h2, h3, h4⟩ :=
    expansion_apply_correct exampleState 7 exampleExpansion rfl (by decide)
      (by decide)
  refine ⟨h1, ?_, ?_, ?_⟩
  · rw [h2]; norm_num [exampleState, exampleExpansion]
  · have hb : exampleState.balance 7 = 500 * 10 ^ 18 := rfl
    have hv : exampleExpansion.ValueTokens = 50 * 10 ^ 18 := rfl
    rw [hb, hv] at h3
    omega
  · rw [h4]; norm_num [exampleState]

/-- C1 (amended): for every Contraction decision consistent with the current
ledger (its claimed resulting supply plus the delta equals the persisted
supply) whose value-token amount fits 256 bits: when the minimum supply is
respected the call applies the adjustment, with the persisted supply
decreased by exactly the delta, the treasury balance increased by exactly
the counterpart amount, a nil result and one appended record; when
oldSupply - supplyDelta falls below the minimum supply the call mutates
nothing and the apply-time feasibility check fails with the supply-underflow
reason. The consistency hypothesis is necessary: the feasibility predicate
receives only the decision, the treasury balance and the minimum supply, so
it judges the minimum-supply condition from the claimed resulting supply. -/
theorem contraction_apply_correct (σ : StateDB) (t : Nat) (adj : AdjustmentResult)
    (hk : adj.kind = AdjustmentType.Contraction)
    (hfit : adj.ValueTokens < 2 ^ 256)
    (hfresh : adj.NewSupply + adj.Amount = σ.store SKey.currentSupply) :
    (σ.store SKey.minimumSupply ≤ σ.store SKey.currentSupply - adj.Amount →
      (ApplySupplyAdjustment σ t adj).1 = none ∧
      ((ApplySupplyAdjustment σ t adj).2).store SKey.currentSupply + adj.Amount
        = σ.store SKey.currentSupply ∧
      ((ApplySupplyAdjustment σ t adj).2).balance t
        = σ.balance t + adj.ValueTokens ∧
      ((ApplySupplyAdjustment σ t adj).2).store SKey.historyCount
        = σ.store SKey.historyCount + 1) ∧
    (σ.store SKey.currentSupply - adj.Amount < σ.store SKey.minimumSupply →
      (ApplySupplyAdjustment σ t adj).2 = σ ∧
      (ApplySupplyAdjustment σ t adj).1 = none ∧
      (IsAdjustmentPossible adj (σ.balance t) (σ.store SKey.minimumSupply)).2
        = FeasReason.supplyUnderflow) := by
  constructor
  · intro hmin
    have hfeas : σ.store SKey.minimumSupply ≤ adj.NewSupply := by omega
    rw [apply_contraction_eq σ t adj hk hfeas hfit]
    refine ⟨rfl, ?_, ?_, ?_⟩
    · rw [updateAdjustmentHistory_currentSupply]
      simp
      omega
    · rw [updateAdjustmentHistory_balance]
      simp
    · rw [updateAdjustmentHistory_count]
      simp
  · intro hmin
    have hlt : adj.NewSupply < σ.store SKey.minimumSupply := by omega
    have hinf : (IsAdjustmentPossible adj (σ.balance t) (σ.store SKey.minimumSupply)).1
        = false := by
      simp [IsAdjustmentPossible, hk, hlt]
    have hne : adj.kind ≠ AdjustmentType.None := by rw [hk]; intro h; cases h
    rw [apply_infeasible_eq σ t adj hne hinf]
    refine ⟨rfl, rfl, ?_⟩
    simp [IsAdjustmentPossible, hk, hlt]

/-- Witness for C1: the applying branch on freshState1 (supply 100, minimum
8) with a consistent Contraction of delta 5, and the rejecting branch on
staleState (supply 10, minimum 8) with a consistent Contraction of delta 5
(10 - 5 = 5 < 8). -/
theorem contraction_apply_correct_witness :
    (((ApplySupplyAdjustment freshState1 0 freshContraction1).2).store SKey.currentSupply
        + freshContraction1.Amount = freshState1.store SKey.currentSupply ∧
      ((ApplySupplyAdjustment freshState1 0 freshContraction1).2).balance 0
        = freshState1.balance 0 + freshContraction1.ValueTokens) ∧
    ((ApplySupplyAdjustment staleState 0 breachContraction).2 = staleState ∧
      (IsAdjustmentPossible breachContraction (staleState.balance 0)
        (staleState.store SKey.minimumSupply)).2 = FeasReason.supplyUnderflow) := by
  have h1 :=
    (contraction_apply_correct freshState1 0 freshContraction1 rfl (by decide)
      (by decide)).1 (by decide)
  have h2 :=
    (contraction_apply_correct staleState 0 breachContraction rfl (by decide)
      (by decide)).2 (by decide)
  exact ⟨⟨h1.2.1, h1.2.2.1⟩, ⟨h2.1, h2.2.2⟩⟩

/-- Counterexample for C1 as stated: staleContraction claims a resulting
supply of 15, computed against an older ledger; on staleState the current
supply is 10, the delta is 5 and the minimum supply is 8, so
oldSupply - supplyDelta = 5 < 8, yet the call is not rejected: the supply
is mutated to 5 and a history record is appended, because the feasibility
predicate never sees the current supply. -/
theorem contraction_stale_not_rejected :
    staleState.store SKey.currentSupply - staleContraction.Amount
      < staleState.store SKey.minimumSupply ∧
    ((ApplySupplyAdjustment staleState 0 staleContraction).2).store SKey.currentSupply
      = 5 ∧
    ((ApplySupplyAdjustment staleState 0 staleContraction).2).store SKey.historyCount
      = 1 := by decide

/-- C3 (amended): for every non-None decision that passes the feasibility
check and whose value-token amount fits 256 bits, the appended history
record stores, in its resulting-supply slot, the claimed NewSupply field of
the incoming decision, not the supply value read back from the ledger after
the mutation. -/
theorem history_stores_claimed_supply (σ : StateDB) (t : Nat) (adj : AdjustmentResult)
    (hk : adj.kind ≠ AdjustmentType.None)
    (hfit : adj.ValueTokens < 2 ^ 256)
    (hfeas : (IsAdjustmentPossible adj (σ.balance t) (σ.store SKey.minimumSupply)).1
      = true) :
    ((ApplySupplyAdjustment σ t adj).2).store
        (SKey.adjNewSupply (σ.store SKey.historyCount))
      = adj.NewSupply := by
  cases hkind : adj.kind with
  | None => exact absurd hkind hk
  | Expansion =>
      have hfeas2 : adj.ValueTokens ≤ σ.balance t := by
        by_contra hcon
        rw [IsAdjustmentPossible, hkind] at hfeas
        simp [Nat.lt_of_not_le hcon] at hfeas
      rw [apply_expansion_eq σ t adj hkind hfeas2 hfit]
      have hcnt :
          (setStore (subBalance σ t adj.ValueTokens) SKey.currentSupply
            (σ.store SKey.currentSupply + adj.Amount)).store SKey.historyCount
          = σ.store SKey.historyCount := by simp
      rw [← hcnt, updateAdjustmentHistory_newSupply_slot]
  | Contraction =>
      have hfeas2 : σ.store SKey.minimumSupply ≤ adj.NewSupply := by
        by_contra hcon
        rw [IsAdjustmentPossible, hkind] at hfeas
        simp [Nat.lt_of_not_le hcon] at hfeas
      rw [apply_contraction_eq σ t adj hkind hfeas2 hfit]
      have hcnt :
          (setStore (addBalance σ t adj.ValueTokens) SKey.currentSupply
            (((σ.store SKey.currentSupply : Int) - (adj.Amount : Int)).natAbs)).store
              SKey.historyCount
          = σ.store SKey.historyCount := by simp
      rw [← hcnt, updateAdjustmentHistory_newSupply_slot]

/-- Witness for C3 on auditState with a feasible Expansion whose claimed
resulting supply is 47. -/
theorem history_stores_claimed_supply_witness :
    ((ApplySupplyAdjustment auditState 0 auditExpansion).2).store
        (SKey.adjNewSupply (auditState.store SKey.historyCount))
      = auditExpansion.NewSupply :=
  history_stores_claimed_supply auditState 0 auditExpansion (by decide) (by decide)
    (by decide)

/-- Counterexample for C3 as stated: applying mismatchExpansion on
mismatchState mutates the ledger supply to 110 = 100 + 10 but writes the
claimed value 999 into the resulting-supply slot of record 0, so the stored
record does not equal the supply read back from the ledger. -/
theorem history_supply_mismatch :
    ((ApplySupplyAdjustment mismatchState 0 mismatchExpansion).2).store
        SKey.currentSupply = 110 ∧
    ((ApplySupplyAdjustment mismatchState 0 mismatchExpansion).2).store
        (SKey.adjNewSupply 0) = 999 ∧
    ((ApplySupplyAdjustment mismatchState 0 mismatchExpansion).2).store
        (SKey.adjNewSupply 0)
      ≠ ((ApplySupplyAdjustment mismatchState 0 mismatchExpansion).2).store
          SKey.currentSupply := by decide

/-- C6 (amended): for every non-None decision that passes the feasibility
check and whose value-token amount does not fit 256 bits, the call returns
the overflow error and the ledger is returned untouched: the conversion is
checked strictly before any balance or supply mutation, in both the
Expansion and the Contraction branch. (A decision the feasibility check
rejects is skipped with a nil result before the conversion is reached.) -/
theorem overflow_rejected_before_mutation (σ : StateDB) (t : Nat)
    (adj : AdjustmentResult)
    (hk : adj.kind ≠ AdjustmentType.None)
    (hfeas : (IsAdjustmentPossible adj (σ.balance t) (σ.store SKey.minimumSupply)).1
      = true)
    (hbig : 2 ^ 256 ≤ adj.ValueTokens) :
    ApplySupplyAdjustment σ t adj = (some "value token amount overflow", σ) := by
  cases hkind : adj.kind with
  | None => exact absurd hkind hk
  | Expansion =>
      rw [IsAdjustmentPossible, hkind] at hfeas
      by_cases hcon : σ.balance t < adj.ValueTokens
      · simp [hcon] at hfeas
      · simp [ApplySupplyAdjustment, hkind, IsAdjustmentPossible, hcon]
        exact hbig
  | Contraction =>
      rw [IsAdjustmentPossible, hkind] at hfeas
      by_cases hcon : adj.NewSupply < σ.store SKey.minimumSupply
      · simp [hcon] at hfeas
      · simp [ApplySupplyAdjustment, hkind, IsAdjustmentPossible, hcon]
        exact hbig

/-- Witness for C6: a Contraction feasible on the empty ledger (minimum
supply 0) carrying 2^256 value tokens is answered with the overflow error
and an untouched ledger. -/
theorem overflow_rejected_before_mutation_witness :
    ApplySupplyAdjustment zeroState 0 overflowFeasibleAdj
      = (some "value token amount overflow", zeroState) :=
  overflow_rejected_before_mutation zeroState 0 overflowFeasibleAdj (by decide)
    (by decide) (by decide)

/-- Counterexample for C6 as stated: overflowSkipAdj carries 2^256 value
tokens, which does not fit 256 bits, yet the call on staleState returns
nil, not an overflow error, because the feasibility check rejects the
decision before the conversion is reached. -/
theorem overflow_without_error :
    2 ^ 256 ≤ overflowSkipAdj.ValueTokens ∧
    (ApplySupplyAdjustment staleState 0 overflowSkipAdj).1 = none := by decide

/-- C7 (amended): for every non-None decision that the feasibility check
rejects, a direct call to ApplySupplyAdjustment performs no ledger mutation
but returns nil, exactly the value a successfully applied adjustment
returns, so the skip is not distinguishable from silent success by the
result. -/
theorem infeasible_skip_silent (σ : StateDB) (t : Nat) (adj : AdjustmentResult)
    (hk : adj.kind ≠ AdjustmentType.None)
    (hinf : (IsAdjustmentPossible adj (σ.balance t) (σ.store SKey.minimumSupply)).1
      = false) :
    ApplySupplyAdjustment σ t adj = (none, σ) :=
  apply_infeasible_eq σ t adj hk hinf

/-- Witness for C7 on skipState with the rejected Contraction skipAdj. -/
theorem infeasible_skip_silent_witness :
    ApplySupplyAdjustment skipState 0 skipAdj = (none, skipState) :=
  infeasible_skip_silent skipState 0 skipAdj (by decide) (by decide)

/-- Counterexample for C7 as stated: on skipState the rejected Contraction
skipAdj produces the nil result and no history append, while the accepted
Contraction appliedAdj mutates the ledger and produces the same nil result,
so the skipped outcome is not distinguishable from an applied one. -/
theorem skip_indistinguishable :
    (ApplySupplyAdjustment skipState 0 skipAdj).1 = none ∧
    ((ApplySupplyAdjustment skipState 0 skipAdj).2).store SKey.historyCount = 0 ∧
    (ApplySupplyAdjustment skipState 0 appliedAdj).1 = none ∧
    ((ApplySupplyAdjustment skipState 0 appliedAdj).2).store SKey.historyCount
      = 1 := by decide

/-
  Lemmas about the periodic update path.
-/

lemma ProcessUpdate_fst (calcDecision : Nat → Nat → Nat → AdjustmentResult)
    (targetValue currentValue : Nat) (now : Int) (σ : StateDB) :
    (ProcessUpdate calcDecision targetValue currentValue now σ).1
      = calcDecision (σ.store SKey.currentSupply)
          (if σ.store SKey.valueTokenPrice = 0 then 10 ^ 18
            else σ.store SKey.valueTokenPrice)
          (σ.store SKey.marketVolatility % 2 ^ 64 % 2 ^ 8) := rfl

lemma ProcessUpdate_currentSupply (calcDecision : Nat → Nat → Nat → AdjustmentResult)
    (targetValue currentValue : Nat) (now : Int) (σ : StateDB) :
    ((ProcessUpdate calcDecision targetValue currentValue now σ).2).store
        SKey.currentSupply
      = σ.store SKey.currentSupply := by
  simp [ProcessUpdate]

lemma ProcessUpdate_historyCount (calcDecision : Nat → Nat → Nat → AdjustmentResult)
    (targetValue currentValue : Nat) (now : Int) (σ : StateDB) :
    ((ProcessUpdate calcDecision targetValue currentValue now σ).2).store
        SKey.historyCount
      = σ.store SKey.historyCount := by
  simp [ProcessUpdate]

lemma ProcessUpdate_balance (calcDecision : Nat → Nat → Nat → AdjustmentResult)
    (targetValue currentValue : Nat) (now : Int) (σ : StateDB) :
    ((ProcessUpdate calcDecision targetValue currentValue now σ).2).balance
      = σ.balance := by
  simp [ProcessUpdate]

lemma ProcessUpdate_readRecord (calcDecision : Nat → Nat → Nat → AdjustmentResult)
    (targetValue currentValue : Nat) (now : Int) (σ : StateDB) (i : Nat) :
    readRecord ((ProcessUpdate calcDecision targetValue currentValue now σ).2) i
      = readRecord σ i := by
  simp [ProcessUpdate, readRecord]

/-- C10: in the periodic update the decision calculation receives the
default reference price 10^18 exactly when the stored value-token price
word is zero, and the stored word itself otherwise; the other two inputs
are the persisted supply and the truncated volatility word. -/
theorem default_price_when_unset (calcDecision : Nat → Nat → Nat → AdjustmentResult)
    (targetValue currentValue : Nat) (now : Int) (σ : StateDB) :
    (σ.store SKey.valueTokenPrice = 0 →
      (ProcessUpdate calcDecision targetValue currentValue now σ).1
        = calcDecision (σ.store SKey.currentSupply) (10 ^ 18)
            (σ.store SKey.marketVolatility % 2 ^ 64 % 2 ^ 8)) ∧
    (σ.store SKey.valueTokenPrice ≠ 0 →
      (ProcessUpdate calcDecision targetValue currentValue now σ).1
        = calcDecision (σ.store SKey.currentSupply) (σ.store SKey.valueTokenPrice)
            (σ.store SKey.marketVolatility % 2 ^ 64 % 2 ^ 8)) := by
  constructor
  · intro h0
    rw [ProcessUpdate_fst, if_pos h0]
  · intro h0
    rw [ProcessUpdate_fst, if_neg h0]

/-- Witness for C10: with a zero stored price word the probe calculation
receives 10^18; with the stored word 5 it receives 5. -/
theorem default_price_when_unset_witness :
    (ProcessUpdate probeCalc 0 0 0 zeroPriceState).1 = probeCalc 60 (10 ^ 18) 0 ∧
    (ProcessUpdate probeCalc 0 0 0 setPriceState).1 = probeCalc 60 5 0 := by
  have h1 := (default_price_when_unset probeCalc 0 0 0 zeroPriceState).1 (by decide)
  have h2 := (default_price_when_unset probeCalc 0 0 0 setPriceState).2 (by decide)
  constructor
  · rw [h1]; decide
  · rw [h2]; decide

/-- C4 (amended): on every periodic tick where the Decision Source reports
data newer than the locally recorded last-update time, checkForUpdates runs
the update cycle: it reads the ledger state, computes a decision from the
persisted supply, reference price and volatility, and publishes it; but the
cycle does not invoke the Supply Adjustment Engine: the persisted supply,
the treasury balances, the history count and every history record are
unchanged, and no history record is appended even for a non-None
decision. -/
theorem periodic_cycle_no_apply (lastUpdateTime proprietaryUpdate : Int)
    (calcDecision : Nat → Nat → Nat → AdjustmentResult)
    (targetValue currentValue : Nat) (now : Int) (σ : StateDB)
    (hnew : lastUpdateTime < proprietaryUpdate) :
    checkForUpdates lastUpdateTime proprietaryUpdate calcDecision targetValue
        currentValue now σ
      = some (ProcessUpdate calcDecision targetValue currentValue now σ) ∧
    (ProcessUpdate calcDecision targetValue currentValue now σ).1
      = calcDecision (σ.store SKey.currentSupply)
          (if σ.store SKey.valueTokenPrice = 0 then 10 ^ 18
            else σ.store SKey.valueTokenPrice)
          (σ.store SKey.marketVolatility % 2 ^ 64 % 2 ^ 8) ∧
    ((ProcessUpdate calcDecision targetValue currentValue now σ).2).store
        SKey.currentSupply = σ.store SKey.currentSupply ∧
    ((ProcessUpdate calcDecision targetValue currentValue now σ).2).store
        SKey.historyCount = σ.store SKey.historyCount ∧
    ((ProcessUpdate calcDecision targetValue currentValue now σ).2).balance
      = σ.balance ∧
    (∀ i : Nat,
      readRecord ((ProcessUpdate calcDecision targetValue currentValue now σ).2) i
        = readRecord σ i) := by
  refine ⟨?_, ProcessUpdate_fst _ _ _ _ _, ProcessUpdate_currentSupply _ _ _ _ _,
    ProcessUpdate_historyCount _ _ _ _ _, ProcessUpdate_balance _ _ _ _ _,
    ProcessUpdate_readRecord _ _ _ _ _⟩
  simp [checkForUpdates, hnew]

/-- Witness for C4 on tickState with the Expansion-producing calculation. -/
theorem periodic_cycle_no_apply_witness :
    checkForUpdates 0 1 tickCalc 4 5 6 tickState
      = some (ProcessUpdate tickCalc 4 5 6 tickState) ∧
    ((ProcessUpdate tickCalc 4 5 6 tickState).2).store SKey.historyCount
      = tickState.store SKey.historyCount := by
  have h := periodic_cycle_no_apply 0 1 tickCalc 4 5 6 tickState (by decide)
  exact ⟨h.1, h.2.2.2.1⟩

/-- Counterexample for C4 as stated: on tickState (history count 0, supply
50) with newer proprietary data, the tick computes a non-None decision
(an Expansion), yet after the cycle the history count is still 0 and the
supply is still 50: the Supply Adjustment Engine is never invoked and no
history record is appended on the periodic path. -/
theorem periodic_tick_never_applies :
    tickState.store SKey.historyCount = 0 ∧
    (checkForUpdates 0 1 tickCalc 0 0 0 tickState).map
        (fun p => ((p.1).kind, (p.2).store SKey.historyCount,
          (p.2).store SKey.currentSupply))
      = some (AdjustmentType.Expansion, 0, 50) := by decide

/-
  Lemmas about sequences of history appends.
-/

lemma foldl_updateAdjustmentHistory_count (l : List AdjustmentResult) (σ : StateDB) :
    (List.foldl updateAdjustmentHistory σ l).store SKey.historyCount
      = σ.store SKey.historyCount + l.length := by
  induction l generalizing σ with
  | nil => simp
  | cons a tl IH =>
      simp only [List.foldl_cons, List.length_cons]
      rw [IH, updateAdjustmentHistory_count]
      omega

lemma foldl_updateAdjustmentHistory_preserve (l : List AdjustmentResult)
    (σ : StateDB) (i : Nat) (h : i < σ.store SKey.historyCount) :
    readRecord (List.foldl updateAdjustmentHistory σ l) i = readRecord σ i := by
  induction l generalizing σ with
  | nil => rfl
  | cons a tl IH =>
      simp only [List.foldl_cons]
      have h1 : i < (updateAdjustmentHistory σ a).store SKey.historyCount := by
        rw [updateAdjustmentHistory_count]; omega
      rw [IH (updateAdjustmentHistory σ a) h1,
        updateAdjustmentHistory_readRecord_ne σ a i (by omega)]

lemma foldl_updateAdjustmentHistory_get (l : List AdjustmentResult) (σ : StateDB)
    (j : Nat) (hj : j < l.length) :
    readRecord (List.foldl updateAdjustmentHistory σ l)
        (σ.store SKey.historyCount + j)
      = encodeRecord (l.get ⟨j, hj⟩) := by
  induction l generalizing σ j with
  | nil => exact absurd hj (by simp)
  | cons a tl IH =>
      cases j with
      | zero =>
          simp only [List.foldl_cons, Nat.add_zero, List.get]
          have h1 : σ.store SKey.historyCount
              < (updateAdjustmentHistory σ a).store SKey.historyCount := by
            rw [updateAdjustmentHistory_count]; omega
          rw [foldl_updateAdjustmentHistory_preserve tl _ _ h1,
            updateAdjustmentHistory_readRecord_self]
      | succ j =>
          simp only [List.foldl_cons, List.get]
          have h1 : σ.store SKey.historyCount + (j + 1)
              = (updateAdjustmentHistory σ a).store SKey.historyCount + j := by
            rw [updateAdjustmentHistory_count]; omega
          rw [h1, IH (updateAdjustmentHistory σ a) j (by simpa using hj)]

lemma SetupUltraStableToken_historyCount (σ : StateDB) (t s : Nat) (now : Int)
    (h : s < 2 ^ 256) :
    (SetupUltraStableToken σ t s now).store SKey.historyCount = 0 := by
  rw [SetupUltraStableToken, if_neg (Nat.not_le.mpr h)]
  simp

/-- C8: the journal is an append-only sequence indexed 0, 1, 2, ... with no
gaps and no duplicates. One append increments the persisted count by
exactly one, writes the record at the old count and touches no other
record slot; genesis initializes the count to 0; and folding any sequence
of appends over a state with count 0 leaves the count equal to the length
of the sequence with the record at each index j equal to the j-th appended
adjustment, so no record is ever overwritten or deleted. -/
theorem history_index_sequence :
    (∀ (σ : StateDB) (a : AdjustmentResult),
      (updateAdjustmentHistory σ a).store SKey.historyCount
          = σ.store SKey.historyCount + 1 ∧
      readRecord (updateAdjustmentHistory σ a) (σ.store SKey.historyCount)
          = encodeRecord a ∧
      (∀ i : Nat, i ≠ σ.store SKey.historyCount →
        readRecord (updateAdjustmentHistory σ a) i = readRecord σ i)) ∧
    (∀ (σg : StateDB) (t s : Nat) (now : Int), s < 2 ^ 256 →
      (SetupUltraStableToken σg t s now).store SKey.historyCount = 0) ∧
    (∀ (l : List AdjustmentResult) (σ0 : StateDB),
      σ0.store SKey.historyCount = 0 →
      (List.foldl updateAdjustmentHistory σ0 l).store SKey.historyCount
          = l.length ∧
      (∀ (j : Nat) (hj : j < l.length),
        readRecord (List.foldl updateAdjustmentHistory σ0 l) j
          = encodeRecord (l.get ⟨j, hj⟩))) := by
  refine ⟨?_, ?_, ?_⟩
  · intro σ a
    exact ⟨updateAdjustmentHistory_count σ a,
      updateAdjustmentHistory_readRecord_self σ a,
      fun i hi => updateAdjustmentHistory_readRecord_ne σ a i hi⟩
  · intro σg t s now h
    exact SetupUltraStableToken_historyCount σg t s now h
  · intro l σ0 h0
    constructor
    · rw [foldl_updateAdjustmentHistory_count, h0]
      omega
    · intro j hj
      have h1 := foldl_updateAdjustmentHistory_get l σ0 j hj
      rw [h0] at h1
      simpa using h1

/-- Witness for C8: starting from the empty ledger (history count 0) and
appending recA then recB gives count 2, the records at indices 0 and 1,
and an untouched slot elsewhere. -/
theorem history_index_sequence_witness :
    (updateAdjustmentHistory zeroState recA).store SKey.historyCount
      = zeroState.store SKey.historyCount + 1 ∧
    readRecord (updateAdjustmentHistory zeroState recA) 5 = readRecord zeroState 5 ∧
    (List.foldl updateAdjustmentHistory zeroState [recA, recB]).store
        SKey.historyCount = 2 ∧
    readRecord (List.foldl updateAdjustmentHistory zeroState [recA, recB]) 0
      = encodeRecord recA ∧
    readRecord (List.foldl updateAdjustmentHistory zeroState [recA, recB]) 1
      = encodeRecord recB := by
  have h := history_index_sequence
  have h1 := h.1 zeroState recA
  have h3 := h.2.2 [recA, recB] zeroState rfl
  exact ⟨h1.1, h1.2.2 5 (by decide), h3.1, h3.2 0 (by decide), h3.2 1 (by decide)⟩

/-
  Lemmas about history retrieval.
-/

lemma toInt64_of_lt (n : Nat) (h : n < 2 ^ 63) : toInt64 n = (n : Int) := by
  have h1 : n % 2 ^ 64 = n := Nat.mod_eq_of_lt (by omega)
  simp only [toInt64, h1]
  rw [if_pos h]

lemma fetchAdjustments_eq_map (σ : StateDB) :
    ∀ (k : Nat) (i : Int), 0 ≤ i →
      fetchAdjustments σ k i = (List.range' i.toNat k).map (decodeRecord σ) := by
  intro k
  induction k with
  | zero => intro i _; rfl
  | succ k IH =>
      intro i hi
      show decodeRecord σ i.toNat :: fetchAdjustments σ k (i + 1) = _
      rw [IH (i + 1) (by omega)]
      have h2 : (i + 1).toNat = i.toNat + 1 := by omega
      rw [h2]
      rfl

/-- C9 (amended): for every non-negative maxEntries n and every journal
whose persisted count c fits a signed 64-bit integer (c < 2^63), the query
returns exactly min(n, c) records, namely the decoded records of the window
from c - min(n, c) up to c in chronological order, and the empty sequence
when c = 0. -/
theorem query_returns_window (σ : StateDB) (maxEntries : Int)
    (hn : 0 ≤ maxEntries) (hc : σ.store SKey.historyCount < 2 ^ 63) :
    GetAdjustmentHistory σ maxEntries
      = (List.range'
          (σ.store SKey.historyCount
            - min maxEntries.toNat (σ.store SKey.historyCount))
          (min maxEntries.toNat (σ.store SKey.historyCount))).map
          (decodeRecord σ) ∧
    (GetAdjustmentHistory σ maxEntries).length
      = min maxEntries.toNat (σ.store SKey.historyCount) ∧
    (σ.store SKey.historyCount = 0 → GetAdjustmentHistory σ maxEntries = []) := by
  have hmain : GetAdjustmentHistory σ maxEntries
      = (List.range'
          (σ.store SKey.historyCount
            - min maxEntries.toNat (σ.store SKey.historyCount))
          (min maxEntries.toNat (σ.store SKey.historyCount))).map
          (decodeRecord σ) := by
    simp only [GetAdjustmentHistory]
    rw [toInt64_of_lt _ hc]
    by_cases hcase : maxEntries ≤ (σ.store SKey.historyCount : Int)
    · have hpos : ¬ ((σ.store SKey.historyCount : Int) - maxEntries < 0) := by omega
      rw [if_neg hpos, fetchAdjustments_eq_map σ _ _ (by omega)]
      have e1 : ((σ.store SKey.historyCount : Int)
            - ((σ.store SKey.historyCount : Int) - maxEntries)).toNat
          = min maxEntries.toNat (σ.store SKey.historyCount) := by omega
      have e2 : ((σ.store SKey.historyCount : Int) - maxEntries).toNat
          = σ.store SKey.historyCount
              - min maxEntries.toNat (σ.store SKey.historyCount) := by omega
      rw [e1, e2]
    · have hneg : (σ.store SKey.historyCount : Int) - maxEntries < 0 := by omega
      rw [if_pos hneg, fetchAdjustments_eq_map σ _ 0 le_rfl]
      have e1 : ((σ.store SKey.historyCount : Int) - 0).toNat
          = min maxEntries.toNat (σ.store SKey.historyCount) := by omega
      have e2 : (0 : Int).toNat
          = σ.store SKey.historyCount
              - min maxEntries.toNat (σ.store SKey.historyCount) := by omega
      rw [e1, e2]
  refine ⟨hmain, ?_, ?_⟩
  · rw [hmain]
    simp
  · intro h0
    rw [hmain, h0]
    simp

/-- Witness for C9 on a journal with count 3 queried for 2 entries: the
window is records 1 and 2, oldest first. -/
theorem query_returns_window_witness :
    GetAdjustmentHistory smallJournalState 2
      = (List.range' 1 2).map (decodeRecord smallJournalState) ∧
    (GetAdjustmentHistory smallJournalState 2).length = 2 := by
  have h := query_returns_window smallJournalState 2 (by decide) (by decide)
  have e : smallJournalState.store SKey.historyCount = 3 := rfl
  constructor
  · have h1 := h.1
    rw [e] at h1
    simpa using h1
  · have h2 := h.2.1
    rw [e] at h2
    simpa using h2

/-- Counterexample for C9 as stated: on a journal whose persisted count is
2^63 a query for one entry returns the empty sequence, not
min(1, count) = 1 records, because the count is read through a signed
64-bit conversion that wraps 2^63 to a negative number. -/
theorem query_truncates_large_count :
    GetAdjustmentHistory hugeJournalState 1 = [] ∧
    min (Int.toNat 1) (hugeJournalState.store SKey.historyCount) = 1 := by decide

end O2UL
